import Mathlib

/-!
Verification of `arch/multivariate/base.py` (`MultivariateARCHModel`).

The Python source is shallowly embedded: numpy 1-D arrays become `List ℚ`,
2-D arrays become index functions `ℕ → ℕ → ℚ` (with their shapes carried
separately, as numpy does), Python exceptions become `Except PyError`,
`None`-able returns become `Option`, and the collaborator calls the core
delegates to (volatility process, distribution, numerical differentiation,
matrix inversion) are parameters of the embedded functions, mirroring the
spec's "pluggable capability" boundaries.
-/

namespace ArchMV

/-- Python exceptions that the embedded fragments can raise. -/
inductive PyError where
  | valueError
  | indexError
  | typeError
deriving DecidableEq

/-! ## Parameter Layout: `MultivariateARCHModel._parse_parameters`

Source (base.py lines 214-218):
`params[:km], params[km:km + kv], params[km + kv:]` where
`km = self.num_params` and `kv = self.volatility.num_params`.
Python slicing clips out-of-range slices; it never raises here. -/

/-- Embedding of `_parse_parameters`: split a flat vector at `km` and
`km + kv`, with Python slice-clipping semantics. -/
def parse_parameters (km kv : ℕ) (params : List ℚ) :
    List ℚ × List ℚ × List ℚ :=
  (params.take km, (params.drop km).take kv, params.drop (km + kv))

/-! ## Fit path selection: `MultivariateARCHModel.fit`, lines 289-301

`has_closed_form = (v.closed_form and d.num_params == 0) or total_params == 0`;
on the closed-form path `fit` returns `_fit_no_arch_normal_errors(...)`,
falling through to the general path when that raises `NotImplementedError`.
The closed-form collaborator is embedded as an `Option R`: `none` models the
`NotImplementedError` signal, `some r` a successful closed-form result. -/

/-- The two terminal paths of the fit orchestrator. -/
inductive FitPath (R : Type) where
  | closedForm (r : R)
  | general

/-- Embedding of fit's `has_closed_form` flag (line 293). -/
def has_closed_form (vClosedForm : Bool) (dNumParams totalParams : ℕ) : Bool :=
  (vClosedForm && dNumParams == 0) || totalParams == 0

/-- Embedding of fit's path selection (lines 293-301): when
`has_closed_form`, try the mean model's closed-form estimator and fall
through to the general optimization path on `NotImplementedError`. -/
def fitPath {R : Type} (vClosedForm : Bool) (dNumParams totalParams : ℕ)
    (closedFormFit : Option R) : FitPath R :=
  if has_closed_form vClosedForm dNumParams totalParams then
    match closedFormFit with
    | some r => FitPath.closedForm r
    | none => FitPath.general
  else FitPath.general

/-! ## Mean-model default starting values:
`MultivariateARCHModel.starting_values`, lines 433-449

```
nvar = self.nvar
distinct_cov = (nvar * (nvar + 1)) // 2
params = np.asarray(self._fit_no_arch_normal_errors().params)
if params.shape == distinct_cov:
    return np.empty(0)
elif params.shape[0] > 1:
    return params[:-distinct_cov]
```
`params.shape` is a Python tuple, `distinct_cov` a Python int; `==` between
a tuple and an int is `False` for every array.  When neither branch is
taken the method returns `None`. -/

/-- Python values involved in the `params.shape == distinct_cov`
comparison: a shape tuple or an int. -/
inductive PyVal where
  | int (n : ℤ)
  | tuple (t : List ℤ)
deriving DecidableEq

/-- Python `==` on these values: tuples never equal ints. -/
def pyEq : PyVal → PyVal → Bool
  | PyVal.int a, PyVal.int b => a == b
  | PyVal.tuple a, PyVal.tuple b => a == b
  | _, _ => false

/-- Python slice `l[:-d]` for a nonnegative `d`: drop the trailing `d`
entries, except that `l[:-0]` is `l[:0]`, the empty list. -/
def py_slice_drop_last (l : List ℚ) (d : ℕ) : List ℚ :=
  if d = 0 then [] else l.take (l.length - d)

/-- Embedding of the mean model's `starting_values` (lines 433-449);
`params` is the closed-form estimate's parameter array, a 1-D array of
shape `(params.length,)`.  `none` models Python's implicit `return None`. -/
def starting_values (nvar : ℕ) (params : List ℚ) : Option (List ℚ) :=
  if pyEq (PyVal.tuple [(params.length : ℤ)])
      (PyVal.int ((nvar * (nvar + 1)) / 2 : ℕ)) then
    some []
  else if params.length > 1 then
    some (py_slice_drop_last params ((nvar * (nvar + 1)) / 2))
  else
    none

/-! ## Constraint Assembler: `MultivariateARCHModel.fit`, lines 316-334

```
constraints = (self.constraints(), self.volatility.constraints(),
               self.distribution.constraints())
num_constraints = [c[0].shape[0] for c in constraints]
a = np.zeros((num_constraints.sum(), num_params))
b = np.zeros(num_constraints.sum())
for i, c in enumerate(constraints):
    r_en = num_constraints[:i + 1].sum()
    c_en = offsets[:i + 1].sum()
    r_st = r_en - num_constraints[i]
    c_st = c_en - offsets[i]
    if r_en - r_st > 0:
        a[r_st:r_en, c_st:c_en] = c[0]
        b[r_st:r_en] = c[1]
```
2-D arrays are embedded as index functions with their shapes carried
separately; offsets are `(km, kv, kd)`, the three parameter counts. -/

/-- One sub-model's constraint pair `(A_i, b_i)`: `rows` is
`A_i.shape[0]`, `A` the loading matrix (by contract of shape
`rows × num_params_i`), `b` the lower-bound vector. -/
structure ConstraintBlock where
  rows : ℕ
  A : ℕ → ℕ → ℚ
  b : ℕ → ℚ

/-- The all-zero matrix `np.zeros((.., ..))` as an index function. -/
def zeros2 : ℕ → ℕ → ℚ := fun _ _ => 0

/-- numpy 2-D slice assignment `a[rSt:rEn, cSt:cEn] = blk` (slice within
bounds, `blk` of the slice's shape). -/
def set_block (a : ℕ → ℕ → ℚ) (rSt rEn cSt cEn : ℕ)
    (blk : ℕ → ℕ → ℚ) : ℕ → ℕ → ℚ :=
  fun r c =>
    if rSt ≤ r ∧ r < rEn ∧ cSt ≤ c ∧ c < cEn then blk (r - rSt) (c - cSt)
    else a r c

/-- One iteration of the assembly loop: the assignment guarded by
`if r_en - r_st > 0` (line 332), so a zero-row sub-model is skipped. -/
def place_block (a : ℕ → ℕ → ℚ) (rSt rEn cSt cEn : ℕ)
    (blk : ℕ → ℕ → ℚ) : ℕ → ℕ → ℚ :=
  if rEn - rSt > 0 then set_block a rSt rEn cSt cEn blk else a

/-- Row count of the assembled system: `num_constraints.sum()`. -/
def assembled_rows (c0 c1 c2 : ConstraintBlock) : ℕ :=
  c0.rows + c1.rows + c2.rows

/-- Column count of the assembled system: `offsets.sum()`
(`num_params`). -/
def assembled_cols (km kv kd : ℕ) : ℕ := km + kv + kd

/-- The assembled loading matrix `a`: the three loop iterations unrolled,
with the cumulative row ranges and parameter-block column ranges of the
source. -/
def assemble_a (km kv kd : ℕ) (c0 c1 c2 : ConstraintBlock) : ℕ → ℕ → ℚ :=
  place_block
    (place_block
      (place_block zeros2 0 c0.rows 0 km c0.A)
      c0.rows (c0.rows + c1.rows) km (km + kv) c1.A)
    (c0.rows + c1.rows) (c0.rows + c1.rows + c2.rows) (km + kv) (km + kv + kd)
    c2.A

/-- numpy 1-D slice assignment `b[rSt:rEn] = seg`. -/
def set_seg (b : ℕ → ℚ) (rSt rEn : ℕ) (seg : ℕ → ℚ) : ℕ → ℚ :=
  fun r => if rSt ≤ r ∧ r < rEn then seg (r - rSt) else b r

/-- One loop iteration for the bound vector `b`, with the same guard. -/
def place_seg (b : ℕ → ℚ) (rSt rEn : ℕ) (seg : ℕ → ℚ) : ℕ → ℚ :=
  if rEn - rSt > 0 then set_seg b rSt rEn seg else b

/-- The assembled lower-bound vector `b`. -/
def assemble_b (c0 c1 c2 : ConstraintBlock) : ℕ → ℚ :=
  place_seg
    (place_seg
      (place_seg (fun _ => 0) 0 c0.rows c0.b)
      c0.rows (c0.rows + c1.rows) c1.b)
    (c0.rows + c1.rows) (c0.rows + c1.rows + c2.rows) c2.b

/-! ## Starting Value Resolver: `MultivariateARCHModel.fit`, lines 341-358

```
sv = starting_values
if starting_values is not None:
    sv = ensure1d(sv, 'starting_values')
    valid = (sv.shape[0] == num_params)
    if a.shape[0] > 0:
        satisfies_constraints = a.dot(sv) - b > 0
        valid = valid and satisfies_constraints.all()
    for i, bound in enumerate(bounds):
        valid = valid and bound[0] <= sv[i] <= bound[1]
    if not valid:
        warnings.warn(starting_value_warning, StartingValueWarning)
        starting_values = None
if starting_values is None:
    sv = (self.starting_values(), sv_volatility,
          d.starting_values(std_resids))
    sv = np.hstack(sv)
```
`a` was built as `np.zeros((rows, num_params))`, so `a.dot(sv)` raises
`ValueError` whenever `sv`'s length differs from `num_params`; that dot
product is computed before `valid` is consulted.  In the bounds loop,
Python's `and` short-circuits, so `sv[i]` (which would raise `IndexError`
out of range) is only evaluated while `valid` is still true. -/

/-- Row `r` of `a.dot(sv)`: the dot product of row `r` of `a` (of width
`cols`) with `sv`. -/
def np_dot_row (a : ℕ → ℕ → ℚ) (r cols : ℕ) (sv : List ℚ) : ℚ :=
  (List.range cols).foldl (fun s i => s + a r i * sv.getD i 0) 0

/-- Embedding of `satisfies_constraints = a.dot(sv) - b > 0` followed by
`.all()`: numpy raises `ValueError` when `sv`'s length differs from `a`'s
column count. -/
def constraint_check (aRows cols : ℕ) (a : ℕ → ℕ → ℚ) (b : ℕ → ℚ)
    (sv : List ℚ) : Except PyError Bool :=
  if sv.length ≠ cols then Except.error PyError.valueError
  else Except.ok ((List.range aRows).all fun r =>
    decide (0 < np_dot_row a r cols sv - b r))

/-- Embedding of `for i, bound in enumerate(bounds): valid = valid and
bound[0] <= sv[i] <= bound[1]`, with Python's short-circuiting `and`:
`sv[i]` is evaluated (raising `IndexError` out of range) only while
`valid` holds. -/
def bounds_loop : List (ℚ × ℚ) → ℕ → List ℚ → Bool → Except PyError Bool
  | [], _, _, valid => Except.ok valid
  | bd :: rest, i, sv, valid =>
    if valid then
      match sv.get? i with
      | none => Except.error PyError.indexError
      | some x =>
          bounds_loop rest (i + 1) sv (decide (bd.1 ≤ x) && decide (x ≤ bd.2))
    else bounds_loop rest (i + 1) sv false

/-- The validity flag computed for a user-supplied starting-value vector
(lines 343-349). -/
def validate_starting_values (numParams aRows : ℕ) (a : ℕ → ℕ → ℚ)
    (b : ℕ → ℚ) (bounds : List (ℚ × ℚ)) (sv : List ℚ) :
    Except PyError Bool :=
  match (if aRows > 0 then
      match constraint_check aRows numParams a b sv with
      | Except.error e => Except.error e
      | Except.ok sc => Except.ok ((sv.length == numParams) && sc)
    else Except.ok (sv.length == numParams)) with
  | Except.error e => Except.error e
  | Except.ok valid => bounds_loop bounds 0 sv valid

/-- What `fit` does with the validity flag (lines 350-358): a true flag
keeps the supplied vector with no warning; a false flag emits the
starting-value warning (the returned Bool) and substitutes the synthesized
defaults; an exception propagates. -/
def apply_validation (sv meanSV volSV distSV : List ℚ) :
    Except PyError Bool → Except PyError (List ℚ × Bool)
  | Except.error e => Except.error e
  | Except.ok true => Except.ok (sv, false)
  | Except.ok false => Except.ok (meanSV ++ volSV ++ distSV, true)

/-- The resolved starting values of `fit` (lines 341-358): a valid
user-supplied vector is used unchanged; an invalid one triggers a
starting-value warning (the returned flag) and the synthesized defaults
`hstack(mean defaults, volatility starting values, distribution starting
values)`; no user vector goes straight to the defaults without warning. -/
def fit_starting_values (numParams aRows : ℕ) (a : ℕ → ℕ → ℚ)
    (b : ℕ → ℚ) (bounds : List (ℚ × ℚ)) (user : Option (List ℚ))
    (meanSV volSV distSV : List ℚ) : Except PyError (List ℚ × Bool) :=
  match user with
  | none => Except.ok (meanSV ++ volSV ++ distSV, false)
  | some sv =>
    apply_validation sv meanSV volSV distSV
      (validate_starting_values numParams aRows a b bounds sv)

/-- The bounds check as a single Bool: every bound pair is satisfied
inclusively by the corresponding supplied entry (false when the entry does
not exist). -/
def bounds_all : List (ℚ × ℚ) → ℕ → List ℚ → Bool
  | [], _, _ => true
  | bd :: rest, i, sv =>
    (match sv.get? i with
     | some x => decide (bd.1 ≤ x) && decide (x ≤ bd.2)
     | none => false) && bounds_all rest (i + 1) sv

/-! ## Result reshaping: `MultivariateARCHModel.fit`, lines 408-414

```
first_obs, last_obs = self._fit_indices
resids_final = np.full((nobs, nvar), np.nan)
resids_final[first_obs:last_obs] = resids
```
`nobs` was set at line 304 from the residuals computed *after*
`_adjust_sample`, so it is the adjusted-window length, while
`_fit_indices` index into the original series.  Rows of the 2-D result
are embedded as elements of type `R`; a NaN-filled row is `none`.
numpy slice assignment clips the slice to the array and raises
`ValueError` unless the source broadcasts to the slice's shape. -/

/-- numpy slice assignment `dst[first:last] = src` on the first axis:
the slice is clipped to `dst`; `src` must have exactly the slice's length
(or length one, which broadcasts), else `ValueError`. -/
def slice_assign {R : Type} (dst : List (Option R)) (first last : ℕ)
    (src : List R) : Except PyError (List (Option R)) :=
  let f := min first dst.length
  let l := max (min last dst.length) f
  if src.length = l - f then
    Except.ok (dst.take f ++ src.map Option.some ++ dst.drop l)
  else if src.length = 1 then
    Except.ok (dst.take f ++ List.replicate (l - f) src.head? ++ dst.drop l)
  else Except.error PyError.valueError

/-- Embedding of fit's residual reshaping (lines 409-411): allocate
`np.full` of length `nobs = resids.length` (the adjusted length) filled
with the NaN sentinel, then assign the window `[first_obs, last_obs)`. -/
def fit_reshape {R : Type} (fitIndices : ℕ × ℕ) (resids : List R) :
    Except PyError (List (Option R)) :=
  slice_assign (List.replicate resids.length (none : Option R))
    fitIndices.1 fitIndices.2 resids

/-! ## Parameter Covariance Estimator:
`MultivariateARCHModel.compute_param_cov`, lines 485-523, and the backcast
cache written by `fit` at lines 307-308.

```
if backcast is None and self._backcast is None:
    backcast = self.volatility.backcast(resids)
    self._backcast = backcast
elif backcast is None:
    backcast = self._backcast
...
hess = approx_hess(params, self._loglikelihood, kwargs=kwargs)
hess /= nobs
inv_hess = np.linalg.inv(hess)
if robust:
    kwargs['individual'] = True
    scores = approx_fprime(params, self._loglikelihood, kwargs=kwargs)
    score_cov = np.cov(scores.T)
    return inv_hess.dot(score_cov).dot(inv_hess) / nobs
else:
    return inv_hess / nobs
```
The statsmodels numerical-differentiation routines evaluate
`f(*((x,) + args), **kwargs)`, forwarding every key of the kwargs
dictionary as a keyword argument of `f`.  Here `f` is
`self._loglikelihood`, whose signature (line 172) is
`(self, parameters, sigma, backcast, individual=False)`: it has no
`sigma2` and no `var_bounds` parameter (those keys were taken over from
the univariate model's likelihood signature), so the forwarded call raises
`TypeError: unexpected keyword argument` on every invocation, at the
`approx_hess` call, before any covariance estimate is produced.  The
embedding models this keyword forwarding explicitly; the matrices the
collaborators would return on a successful call are parameters
(`approx_hess`/`approx_fprime` as functions of the backcast and the
`individual` flag), and `np.linalg.inv` is an abstract collaborator
`minv`.  `np.cov` is embedded concretely. -/

/-- The keyword names involved in the `compute_param_cov` call chain. -/
inductive Kw where
  | sigma2
  | backcast
  | var_bounds
  | individual
  | sigma
  | parameters
deriving DecidableEq

/-- The keyword parameters `_loglikelihood` accepts, from its signature at
line 172: `(self, parameters, sigma, backcast, individual=False)`. -/
def loglikelihood_keywords : List Kw :=
  [Kw.parameters, Kw.sigma, Kw.backcast, Kw.individual]

/-- The keys of the kwargs dictionary built at lines 509-512 (line 518
flips the `individual` entry to `True` for the score pass; the keys stay
the same). -/
def compute_param_cov_kwargs : List Kw :=
  [Kw.sigma2, Kw.backcast, Kw.var_bounds, Kw.individual]

/-- Python keyword forwarding `f(x, **kwargs)`: the call proceeds only if
every kwargs key is a parameter of `f`; otherwise it raises
`TypeError`. -/
def kwargs_accepted (keys accepted : List Kw) : Bool :=
  keys.all fun key => decide (key ∈ accepted)

/-- Square matrices over ℚ indexed by `Fin`. -/
abbrev MatQ (m n : ℕ) := Fin m → Fin n → ℚ

/-- Matrix product. -/
def mat_mul {m n p : ℕ} (A : MatQ m n) (B : MatQ n p) : MatQ m p :=
  fun i j => ∑ t, A i t * B t j

/-- Mean of row `i` of a `k × n` matrix. -/
def row_mean {k n : ℕ} (x : MatQ k n) (i : Fin k) : ℚ :=
  (∑ t, x i t) / (n : ℚ)

/-- `np.cov` of a `k × n` matrix: rows are variables, columns are
observations; the normalization is `n - 1`. -/
def np_cov {k n : ℕ} (x : MatQ k n) : MatQ k k :=
  fun i j =>
    (∑ t, (x i t - row_mean x i) * (x j t - row_mean x j)) / ((n : ℚ) - 1)

/-- Backcast resolution at the top of `compute_param_cov` (lines 503-507):
`cached` is `self._backcast`, `arg` the `backcast` argument, `computed`
the value `self.volatility.backcast(resids)` would produce.  Returns the
backcast used and the cache after the call. -/
def resolve_backcast {B : Type} (cached arg : Option B) (computed : B) :
    B × Option B :=
  match arg, cached with
  | none, none => (computed, some computed)
  | none, some c => (c, cached)
  | some bc, _ => (bc, cached)

/-- The covariance computation spelled out at lines 514-523, reached only
if the kwargs forwarding succeeded.  `approx_hess backcast individual` is
the numerical Hessian of `_loglikelihood` a successful call would return
under those kwargs (`individual` is `False` there),
`approx_fprime backcast individual` the `nobs × k` matrix of
per-observation scores (`individual` set `True` at line 518), `minv` is
`np.linalg.inv`. -/
def param_cov_core {k n : ℕ} {B : Type} (backcast : B) (nobs : ℕ)
    (approx_hess : B → Bool → MatQ k k) (approx_fprime : B → Bool → MatQ n k)
    (minv : MatQ k k → MatQ k k) (robust : Bool) : MatQ k k :=
  let hess : MatQ k k := fun i j => approx_hess backcast false i j / (nobs : ℚ)
  let inv_hess := minv hess
  if robust then
    let scores := approx_fprime backcast true
    let score_cov := np_cov (fun i t => scores t i)
    fun i j => mat_mul (mat_mul inv_hess score_cov) inv_hess i j / (nobs : ℚ)
  else
    fun i j => inv_hess i j / (nobs : ℚ)

/-- Embedding of `compute_param_cov` (lines 485-523): resolve the
backcast against the cache (this runs first, and its cache write
persists even when the later call raises), then invoke
`approx_hess(params, self._loglikelihood, kwargs=kwargs)` — which raises
`TypeError` unless every key of the kwargs dictionary is a keyword of
`_loglikelihood` — and only then run the covariance computation.  Returns
the result (or the exception) together with the cache state after the
call. -/
def compute_param_cov {k n : ℕ} {B : Type} (cached arg : Option B)
    (computed : B) (nobs : ℕ) (approx_hess : B → Bool → MatQ k k)
    (approx_fprime : B → Bool → MatQ n k) (minv : MatQ k k → MatQ k k)
    (robust : Bool) : Except PyError (MatQ k k) × Option B :=
  if kwargs_accepted compute_param_cov_kwargs loglikelihood_keywords then
    (Except.ok (param_cov_core (resolve_backcast cached arg computed).1 nobs
        approx_hess approx_fprime minv robust),
      (resolve_backcast cached arg computed).2)
  else
    (Except.error PyError.typeError,
      (resolve_backcast cached arg computed).2)

/-- The backcast cache on the model after `fit` computed and stored a
backcast (lines 307-308: `backcast = v.backcast(resids);
self._backcast = backcast`). -/
def fit_backcast_cache {B : Type} (backcast : B) : Option B := some backcast

/-- Mean of the per-observation scores in coordinate `i`: written from
the spec's words for the empirical covariance of the score vectors. -/
def score_mean {n k : ℕ} (scores : MatQ n k) (i : Fin k) : ℚ :=
  (∑ t, scores t i) / (n : ℚ)

/-- Empirical covariance of the `n` per-observation score vectors:
written from the spec's words. -/
def empirical_cov {n k : ℕ} (scores : MatQ n k) : MatQ k k :=
  fun i j =>
    (∑ t, (scores t i - score_mean scores i) *
      (scores t j - score_mean scores j)) / ((n : ℚ) - 1)

/-- The spec's formula for the parameter covariance: with `H` the
numerical Hessian of the aggregated negative log-likelihood normalized by
the sample size, the classic estimate is `inv(H) / nobs`; the robust
estimate is the sandwich `inv(H) · S · inv(H) / nobs` with `S` the
empirical covariance of the per-observation numerical scores. -/
def param_cov_spec {k n : ℕ} {B : Type} (backcast : B) (nobs : ℕ)
    (approx_hess : B → Bool → MatQ k k) (approx_fprime : B → Bool → MatQ n k)
    (minv : MatQ k k → MatQ k k) (robust : Bool) : MatQ k k :=
  let invH := minv (fun i j => approx_hess backcast false i j / (nobs : ℚ))
  if robust then
    let S := empirical_cov (approx_fprime backcast true)
    fun i j => mat_mul (mat_mul invH S) invH i j / (nobs : ℚ)
  else
    fun i j => invH i j / (nobs : ℚ)

/-! # Theorems -/

/-- The bounds loop started with a false flag keeps it false and raises
nothing. -/
theorem bounds_loop_false (bounds : List (ℚ × ℚ)) (sv : List ℚ) :
    ∀ i : ℕ, bounds_loop bounds i sv false = Except.ok false := by
  induction bounds with
  | nil => intro i; rfl
  | cons bd rest ih =>
      intro i
      simpa [bounds_loop] using ih (i + 1)

/-- The bounds loop started with a true flag, on a vector long enough for
every accessed index, raises nothing and returns the inclusive bounds
check. -/
theorem bounds_loop_true (bounds : List (ℚ × ℚ)) :
    ∀ (i : ℕ) (sv : List ℚ), i + bounds.length ≤ sv.length →
    bounds_loop bounds i sv true = Except.ok (bounds_all bounds i sv) := by
  induction bounds with
  | nil => intro i sv _; rfl
  | cons bd rest ih =>
      intro i sv h
      have hi : i < sv.length := by
        simp only [List.length_cons] at h
        omega
      have hx : sv.get? i = some (sv.get ⟨i, hi⟩) := List.get?_eq_get hi
      have hrec : i + 1 + rest.length ≤ sv.length := by
        simp only [List.length_cons] at h
        omega
      by_cases hchk :
          (decide (bd.1 ≤ sv.get ⟨i, hi⟩) && decide (sv.get ⟨i, hi⟩ ≤ bd.2))
            = true
      · simp only [bounds_loop, bounds_all, hx, if_true, hchk,
          Bool.true_and]
        exact ih (i + 1) sv hrec
      · rw [Bool.not_eq_true] at hchk
        simp only [bounds_loop, bounds_all, hx, if_true, hchk,
          Bool.false_and]
        exact bounds_loop_false rest sv (i + 1)

/-- Meaning of `bounds_all`: every listed bound pair `(lo, hi)` at
position `j` has a supplied entry at position `i + j` with
`lo ≤ entry ≤ hi`. -/
theorem bounds_all_iff (bounds : List (ℚ × ℚ)) :
    ∀ (i : ℕ) (sv : List ℚ),
    bounds_all bounds i sv = true ↔
      ∀ j, j < bounds.length →
        ∃ x, sv.get? (i + j) = some x ∧
          (bounds.getD j (0, 0)).1 ≤ x ∧ x ≤ (bounds.getD j (0, 0)).2 := by
  induction bounds with
  | nil => intro i sv; simp [bounds_all]
  | cons bd rest ih =>
      intro i sv
      simp only [bounds_all, Bool.and_eq_true, List.length_cons]
      constructor
      · rintro ⟨hhead, hrest⟩ j hj
        cases j with
        | zero =>
            cases hx : sv.get? i with
            | none => rw [hx] at hhead; exact absurd hhead (by simp)
            | some x =>
                rw [hx] at hhead
                simp only [Bool.and_eq_true, decide_eq_true_eq] at hhead
                exact ⟨x, by simpa using hx, hhead.1, hhead.2⟩
        | succ j' =>
            obtain ⟨x, hx, h1, h2⟩ := (ih (i + 1) sv).mp hrest j' (by omega)
            refine ⟨x, ?_, ?_, ?_⟩
            · rw [show i + (j' + 1) = i + 1 + j' by omega]
              exact hx
            · simpa only [List.getD_cons_succ] using h1
            · simpa only [List.getD_cons_succ] using h2
      · intro h
        constructor
        · obtain ⟨x, hx, h1, h2⟩ := h 0 (by omega)
          rw [show i + 0 = i by omega] at hx
          simp only [List.getD_cons_zero] at h1 h2
          rw [hx]
          simp [h1, h2]
        · refine (ih (i + 1) sv).mpr ?_
          intro j' hj'
          obtain ⟨x, hx, h1, h2⟩ := h (j' + 1) (by omega)
          refine ⟨x, ?_, ?_, ?_⟩
          · rw [show i + 1 + j' = i + (j' + 1) by omega]
            exact hx
          · simpa only [List.getD_cons_succ] using h1
          · simpa only [List.getD_cons_succ] using h2

/-- Unfolding of the resolver on a supplied vector. -/
theorem fit_starting_values_some (numParams aRows : ℕ) (a : ℕ → ℕ → ℚ)
    (b : ℕ → ℚ) (bounds : List (ℚ × ℚ)) (sv meanSV volSV distSV : List ℚ) :
    fit_starting_values numParams aRows a b bounds (some sv)
        meanSV volSV distSV =
      apply_validation sv meanSV volSV distSV
        (validate_starting_values numParams aRows a b bounds sv) := rfl

/-- A valid flag keeps the supplied vector. -/
theorem apply_validation_ok_true (sv m v d : List ℚ) :
    apply_validation sv m v d (Except.ok true) = Except.ok (sv, false) := rfl

/-- An invalid flag warns and substitutes the defaults. -/
theorem apply_validation_ok_false (sv m v d : List ℚ) :
    apply_validation sv m v d (Except.ok false) =
      Except.ok (m ++ v ++ d, true) := rfl

/-- An exception from validation propagates. -/
theorem apply_validation_error (sv m v d : List ℚ) (e : PyError) :
    apply_validation sv m v d (Except.error e) = Except.error e := rfl

/-- Results that differ in the warning flag are distinct. -/
theorem ok_pair_ne (x y : List ℚ) :
    (Except.ok (x, true) : Except PyError (List ℚ × Bool)) ≠
      Except.ok (y, false) := by
  intro h
  injection h with h2
  exact Bool.noConfusion (congrArg Prod.snd h2)

/-- C4 amended: supplied starting values are accepted and used unchanged
exactly when they have the correct total length, satisfy every row of the
assembled constraint system strictly, and lie within every bound pair
inclusively (a value exactly at a bound endpoint is accepted); when a
check fails, fit emits the non-fatal starting-value warning and falls back
to the synthesized defaults (the concatenation of the mean model's
defaults, the volatility starting values, and the distribution starting
values) — except that a wrong-length vector combined with a nonempty
constraint system raises a shape-mismatch `ValueError` instead of falling
back. -/
theorem starting_value_resolver_amended (numParams aRows : ℕ)
    (a : ℕ → ℕ → ℚ) (b : ℕ → ℚ) (bounds : List (ℚ × ℚ))
    (sv meanSV volSV distSV : List ℚ)
    (hb : bounds.length ≤ numParams) :
    (fit_starting_values numParams aRows a b bounds (some sv)
        meanSV volSV distSV = Except.ok (sv, false) ↔
      (sv.length = numParams ∧
       (∀ r, r < aRows → 0 < np_dot_row a r numParams sv - b r) ∧
       bounds_all bounds 0 sv = true)) ∧
    ((sv.length = numParams ∨ aRows = 0) →
      ¬(sv.length = numParams ∧
        (∀ r, r < aRows → 0 < np_dot_row a r numParams sv - b r) ∧
        bounds_all bounds 0 sv = true) →
      fit_starting_values numParams aRows a b bounds (some sv)
        meanSV volSV distSV = Except.ok (meanSV ++ volSV ++ distSV, true)) ∧
    (sv.length ≠ numParams → 0 < aRows →
      fit_starting_values numParams aRows a b bounds (some sv)
        meanSV volSV distSV = Except.error PyError.valueError) := by
  by_cases hlen : sv.length = numParams
  · have hbeq : (sv.length == numParams) = true := by
      simpa using hlen
    have hloopLen : 0 + bounds.length ≤ sv.length := by omega
    by_cases hrows : 0 < aRows
    · have hcc : constraint_check aRows numParams a b sv =
          Except.ok ((List.range aRows).all fun r =>
            decide (0 < np_dot_row a r numParams sv - b r)) := by
        unfold constraint_check
        rw [if_neg (by omega)]
      have hconstr : ((List.range aRows).all fun r =>
            decide (0 < np_dot_row a r numParams sv - b r)) = true ↔
          ∀ r, r < aRows → 0 < np_dot_row a r numParams sv - b r := by
        simp [List.all_eq_true, List.mem_range]
      by_cases hsc : ((List.range aRows).all fun r =>
          decide (0 < np_dot_row a r numParams sv - b r)) = true
      · have hval : validate_starting_values numParams aRows a b bounds sv =
            Except.ok (bounds_all bounds 0 sv) := by
          unfold validate_starting_values
          rw [if_pos hrows, hcc]
          simp only [hbeq, hsc, Bool.and_self]
          exact bounds_loop_true bounds 0 sv hloopLen
        refine ⟨?_, ?_, fun hne _ => absurd hlen hne⟩
        · by_cases hba : bounds_all bounds 0 sv = true
          · have hval2 : validate_starting_values numParams aRows a b bounds sv
                = Except.ok true := by rw [hval, hba]
            rw [fit_starting_values_some, hval2, apply_validation_ok_true]
            exact iff_of_true rfl ⟨hlen, hconstr.mp hsc, hba⟩
          · rw [Bool.not_eq_true] at hba
            have hval2 : validate_starting_values numParams aRows a b bounds sv
                = Except.ok false := by rw [hval, hba]
            rw [fit_starting_values_some, hval2, apply_validation_ok_false]
            refine iff_of_false (ok_pair_ne _ _) ?_
            rintro ⟨-, -, hb2⟩
            rw [hba] at hb2
            exact Bool.noConfusion hb2
        · intro _ hnot
          have hba : bounds_all bounds 0 sv = false := by
            rw [← Bool.not_eq_true]
            intro hba
            exact hnot ⟨hlen, hconstr.mp hsc, hba⟩
          have hval2 : validate_starting_values numParams aRows a b bounds sv
              = Except.ok false := by rw [hval, hba]
          rw [fit_starting_values_some, hval2, apply_validation_ok_false]
      · have hval : validate_starting_values numParams aRows a b bounds sv =
            Except.ok false := by
          unfold validate_starting_values
          rw [if_pos hrows, hcc]
          rw [Bool.not_eq_true] at hsc
          simp only [hbeq, hsc, Bool.and_false, Bool.true_and]
          exact bounds_loop_false bounds sv 0
        refine ⟨?_, ?_, fun hne _ => absurd hlen hne⟩
        · rw [fit_starting_values_some, hval, apply_validation_ok_false]
          refine iff_of_false (ok_pair_ne _ _) ?_
          rintro ⟨-, hcon, -⟩
          exact absurd (hconstr.mpr hcon) hsc
        · intro _ _
          rw [fit_starting_values_some, hval, apply_validation_ok_false]
    · have hval : validate_starting_values numParams aRows a b bounds sv =
          Except.ok (bounds_all bounds 0 sv) := by
        unfold validate_starting_values
        rw [if_neg hrows]
        simp only [hbeq]
        exact bounds_loop_true bounds 0 sv hloopLen
      refine ⟨?_, ?_, fun hne _ => absurd hlen hne⟩
      · by_cases hba : bounds_all bounds 0 sv = true
        · have hval2 : validate_starting_values numParams aRows a b bounds sv
              = Except.ok true := by rw [hval, hba]
          rw [fit_starting_values_some, hval2, apply_validation_ok_true]
          exact iff_of_true rfl ⟨hlen, fun r hr => absurd hr (by omega), hba⟩
        · rw [Bool.not_eq_true] at hba
          have hval2 : validate_starting_values numParams aRows a b bounds sv
              = Except.ok false := by rw [hval, hba]
          rw [fit_starting_values_some, hval2, apply_validation_ok_false]
          refine iff_of_false (ok_pair_ne _ _) ?_
          rintro ⟨-, -, hb2⟩
          rw [hba] at hb2
          exact Bool.noConfusion hb2
      · intro _ hnot
        have hba : bounds_all bounds 0 sv = false := by
          rw [← Bool.not_eq_true]
          intro hba
          exact hnot ⟨hlen, fun r hr => absurd hr (by omega), hba⟩
        have hval2 : validate_starting_values numParams aRows a b bounds sv
            = Except.ok false := by rw [hval, hba]
        rw [fit_starting_values_some, hval2, apply_validation_ok_false]
  · have hbeq : (sv.length == numParams) = false := by
      simpa using hlen
    by_cases hrows : 0 < aRows
    · have hval : validate_starting_values numParams aRows a b bounds sv =
          Except.error PyError.valueError := by
        unfold validate_starting_values constraint_check
        rw [if_pos hrows, if_pos (by omega)]
      refine ⟨?_, ?_, fun _ _ => ?_⟩
      · rw [fit_starting_values_some, hval, apply_validation_error]
        exact iff_of_false (fun h => Except.noConfusion h)
          (fun hcond => absurd hcond.1 hlen)
      · rintro (h1 | h2) _
        · exact absurd h1 hlen
        · omega
      · rw [fit_starting_values_some, hval, apply_validation_error]
    · have hval : validate_starting_values numParams aRows a b bounds sv =
          Except.ok false := by
        unfold validate_starting_values
        rw [if_neg hrows]
        simp only [hbeq]
        exact bounds_loop_false bounds sv 0
      refine ⟨?_, ?_, fun _ h2 => absurd h2 hrows⟩
      · rw [fit_starting_values_some, hval, apply_validation_ok_false]
        exact iff_of_false (ok_pair_ne _ _) (fun hcond => absurd hcond.1 hlen)
      · intro _ _
        rw [fit_starting_values_some, hval, apply_validation_ok_false]

/-- C4 amended witness: with one parameter, no constraint rows and bound
pair `(0, 2)`, the supplied vector `[1]` is accepted unchanged; the theorem
is applied at this concrete input. -/
theorem starting_value_resolver_amended_witness :
    (fit_starting_values 1 0 zeros2 (fun _ => 0) [((0 : ℚ), (2 : ℚ))]
        (some [(1 : ℚ)]) [(9 : ℚ)] [] [] = Except.ok ([(1 : ℚ)], false) ↔
      (([(1 : ℚ)] : List ℚ).length = 1 ∧
       (∀ r, r < 0 → 0 < np_dot_row zeros2 r 1 [(1 : ℚ)] - 0) ∧
       bounds_all [((0 : ℚ), (2 : ℚ))] 0 [(1 : ℚ)] = true)) ∧
    ((([(1 : ℚ)] : List ℚ).length = 1 ∨ 0 = 0) →
      ¬(([(1 : ℚ)] : List ℚ).length = 1 ∧
        (∀ r, r < 0 → 0 < np_dot_row zeros2 r 1 [(1 : ℚ)] - 0) ∧
        bounds_all [((0 : ℚ), (2 : ℚ))] 0 [(1 : ℚ)] = true) →
      fit_starting_values 1 0 zeros2 (fun _ => 0) [((0 : ℚ), (2 : ℚ))]
        (some [(1 : ℚ)]) [(9 : ℚ)] [] []
          = Except.ok ([(9 : ℚ)] ++ [] ++ [], true)) ∧
    (([(1 : ℚ)] : List ℚ).length ≠ 1 → 0 < 0 →
      fit_starting_values 1 0 zeros2 (fun _ => 0) [((0 : ℚ), (2 : ℚ))]
        (some [(1 : ℚ)]) [(9 : ℚ)] [] [] = Except.error PyError.valueError) :=
  starting_value_resolver_amended 1 0 zeros2 (fun _ => 0)
    [((0 : ℚ), (2 : ℚ))] [(1 : ℚ)] [(9 : ℚ)] [] [] (by decide)

/-- C4 counterexample: a supplied value exactly at a bound endpoint — not
strictly within the bound pair — is accepted and used unchanged with no
warning: with one parameter, no constraint rows and bound pair `(0, 1)`,
the vector `[0]` passes validation although `0 < 0` is false. -/
theorem starting_value_bound_endpoint_accepted :
    fit_starting_values 1 0 zeros2 (fun _ => 0) [((0 : ℚ), (1 : ℚ))]
        (some [(0 : ℚ)]) [(9 : ℚ)] [] [] = Except.ok ([(0 : ℚ)], false) ∧
    ¬((0 : ℚ) < 0) := ⟨rfl, by norm_num⟩

/-- C5: evaluating the resolver at the failing input — two parameters, one
constraint row, supplied starting values `[1]` of wrong length 1 — the code
raises a shape-mismatch `ValueError` from `a.dot(sv)` instead of warning
and falling back to the synthesized defaults. -/
theorem starting_value_wrong_length_raises :
    fit_starting_values 2 1 (fun _ _ => 1) (fun _ => 0)
        [((0 : ℚ), (2 : ℚ)), ((0 : ℚ), (2 : ℚ))] (some [(1 : ℚ)])
        [(0 : ℚ), (0 : ℚ)] [] [] = Except.error PyError.valueError := rfl

/-- C1: for every parameter vector of length `km + kv + kd`, the three
sub-vectors returned by `_parse_parameters` concatenate (mean, volatility,
distribution, in order) back to the original vector, and have lengths
`km`, `kv` and `kd` respectively. -/
theorem parse_parameters_roundtrip (km kv kd : ℕ) (params : List ℚ)
    (h : params.length = km + kv + kd) :
    (parse_parameters km kv params).1 ++ (parse_parameters km kv params).2.1 ++
        (parse_parameters km kv params).2.2 = params ∧
    (parse_parameters km kv params).1.length = km ∧
    (parse_parameters km kv params).2.1.length = kv ∧
    (parse_parameters km kv params).2.2.length = kd := by
  unfold parse_parameters
  refine ⟨?_, ?_, ?_, ?_⟩
  · rw [List.append_assoc]
    rw [show params.drop (km + kv) = (params.drop km).drop kv by
      rw [List.drop_drop, Nat.add_comm]]
    rw [List.take_append_drop, List.take_append_drop]
  · simp [List.length_take, h]
    omega
  · simp [List.length_take, List.length_drop, h]
    omega
  · simp [List.length_drop, h]

/-- C1 witness: the round-trip at `km = kv = kd = 1`, `params = [1, 2, 3]`. -/
theorem parse_parameters_roundtrip_witness :
    (parse_parameters 1 1 [(1 : ℚ), 2, 3]).1 ++
        (parse_parameters 1 1 [(1 : ℚ), 2, 3]).2.1 ++
        (parse_parameters 1 1 [(1 : ℚ), 2, 3]).2.2 = [(1 : ℚ), 2, 3] ∧
    (parse_parameters 1 1 [(1 : ℚ), 2, 3]).1.length = 1 ∧
    (parse_parameters 1 1 [(1 : ℚ), 2, 3]).2.1.length = 1 ∧
    (parse_parameters 1 1 [(1 : ℚ), 2, 3]).2.2.length = 1 :=
  parse_parameters_roundtrip 1 1 1 [(1 : ℚ), 2, 3] (by decide)

/-- C2 counterexample: with `km = kv = kd = 1` (expected length 3), the
one-entry vector `[5]` is not rejected with a length-mismatch error:
`_parse_parameters` silently returns the clipped split `([5], [], [])`. -/
theorem parse_parameters_no_length_error :
    ([(5 : ℚ)] : List ℚ).length ≠ 1 + 1 + 1 ∧
    parse_parameters 1 1 [(5 : ℚ)] = ([(5 : ℚ)], [], []) := by
  refine ⟨by decide, ?_⟩
  rfl

/-- C2 amended: `_parse_parameters` is pure and total over vectors of any
length; on a vector whose length differs from `km + kv + kd` it does not
fail but returns a silently clipped split: the mean part has length
`min km n`, the volatility part `min kv (n - km)`, the distribution part
`n - (km + kv)`, and the three parts always concatenate back to the
input. -/
theorem parse_parameters_total (km kv : ℕ) (params : List ℚ) :
    (parse_parameters km kv params).1 ++ (parse_parameters km kv params).2.1 ++
        (parse_parameters km kv params).2.2 = params ∧
    (parse_parameters km kv params).1.length = min km params.length ∧
    (parse_parameters km kv params).2.1.length = min kv (params.length - km) ∧
    (parse_parameters km kv params).2.2.length = params.length - (km + kv) := by
  unfold parse_parameters
  refine ⟨?_, ?_, ?_, ?_⟩
  · rw [List.append_assoc]
    rw [show params.drop (km + kv) = (params.drop km).drop kv by
      rw [List.drop_drop, Nat.add_comm]]
    rw [List.take_append_drop, List.take_append_drop]
  · simp [List.length_take]
  · simp [List.length_take, List.length_drop]
  · simp [List.length_drop]

/-- C3: `fit` takes the closed-form path, returning the mean model's
closed-form estimate and never reaching the general optimizer, exactly when
(`volatility.closed_form` and the distribution has zero parameters) or the
total parameter count is zero, and the closed-form estimator succeeds; when
the condition holds but the estimator raises `NotImplementedError` (here:
returns `none`), `fit` falls through to the general path. -/
theorem fit_path_closed_form {R : Type} (v : Bool) (d t : ℕ)
    (cf : Option R) :
    (∀ r : R, fitPath v d t cf = FitPath.closedForm r ↔
        (((v = true ∧ d = 0) ∨ t = 0) ∧ cf = some r)) ∧
    ((((v = true ∧ d = 0) ∨ t = 0) ∧ cf = none) →
        fitPath v d t cf = FitPath.general) := by
  have hc : (has_closed_form v d t = true) ↔ ((v = true ∧ d = 0) ∨ t = 0) := by
    unfold has_closed_form
    simp [Bool.and_eq_true, Bool.or_eq_true]
  constructor
  · intro r
    unfold fitPath
    by_cases h : has_closed_form v d t = true
    · rw [if_pos h]
      cases cf with
      | none => simp [hc.mp h]
      | some r0 =>
          constructor
          · intro he
            refine ⟨hc.mp h, ?_⟩
            cases he
            rfl
          · rintro ⟨-, he⟩
            cases he
            rfl
    · rw [if_neg h]
      constructor
      · intro he
        exact FitPath.noConfusion he
      · rintro ⟨hcond, -⟩
        exact absurd (hc.mpr hcond) h
  · rintro ⟨hcond, hnone⟩
    unfold fitPath
    rw [if_pos (hc.mpr hcond), hnone]

/-- C10: in the mean model's default `starting_values`, the comparison of
the shape tuple `(n,)` with the integer `nvar*(nvar+1)/2` is false for
every nonempty parameter array, so the empty-vector branch is unreachable
there; consequently, for arrays of length greater than one (and at least
one variable, so the trailing count is positive) the method returns all but
the trailing `nvar*(nvar+1)/2` entries, and for arrays of length zero or
one it returns `None` rather than a vector. -/
theorem starting_values_shape_compare (nvar : ℕ) (params : List ℚ) :
    (params ≠ [] →
      pyEq (PyVal.tuple [(params.length : ℤ)])
        (PyVal.int ((nvar * (nvar + 1)) / 2 : ℕ)) = false) ∧
    (params.length > 1 → 0 < nvar →
      starting_values nvar params =
        some (params.take (params.length - (nvar * (nvar + 1)) / 2))) ∧
    (params.length ≤ 1 → starting_values nvar params = none) := by
  refine ⟨fun _ => rfl, ?_, ?_⟩
  · intro hlen hnvar
    have hd : (nvar * (nvar + 1)) / 2 ≠ 0 := by
      have h2 : 2 ≤ nvar * (nvar + 1) := by nlinarith
      omega
    unfold starting_values py_slice_drop_last
    rw [show pyEq (PyVal.tuple [(params.length : ℤ)])
        (PyVal.int ((nvar * (nvar + 1)) / 2 : ℕ)) = false from rfl]
    simp only [Bool.false_eq_true, if_false]
    rw [if_pos hlen, if_neg hd]
  · intro hlen
    unfold starting_values
    rw [show pyEq (PyVal.tuple [(params.length : ℤ)])
        (PyVal.int ((nvar * (nvar + 1)) / 2 : ℕ)) = false from rfl]
    simp only [Bool.false_eq_true, if_false]
    rw [if_neg (by omega)]

/-- C7: the assembled constraint system has `c0.rows + c1.rows + c2.rows`
rows and `km + kv + kd` columns; within its own row range, each sub-model's
`A_i` occupies exactly its own parameter-block columns and every other
entry is zero; a sub-model with zero constraint rows is skipped without
error, and when all three have zero rows the assembled system has zero rows
and `km + kv + kd` columns with every entry of `a` still zero. -/
theorem assemble_constraints_block_diagonal (km kv kd : ℕ)
    (c0 c1 c2 : ConstraintBlock) (r c : ℕ) :
    assembled_rows c0 c1 c2 = c0.rows + c1.rows + c2.rows ∧
    assembled_cols km kv kd = km + kv + kd ∧
    (r < c0.rows → c < km + kv + kd →
      assemble_a km kv kd c0 c1 c2 r c = if c < km then c0.A r c else 0) ∧
    (c0.rows ≤ r → r < c0.rows + c1.rows → c < km + kv + kd →
      assemble_a km kv kd c0 c1 c2 r c =
        if km ≤ c ∧ c < km + kv then c1.A (r - c0.rows) (c - km) else 0) ∧
    (c0.rows + c1.rows ≤ r → r < c0.rows + c1.rows + c2.rows →
      c < km + kv + kd →
      assemble_a km kv kd c0 c1 c2 r c =
        if km + kv ≤ c ∧ c < km + kv + kd then
          c2.A (r - (c0.rows + c1.rows)) (c - (km + kv))
        else 0) ∧
    (c0.rows = 0 ∧ c1.rows = 0 ∧ c2.rows = 0 →
      assembled_rows c0 c1 c2 = 0 ∧ assemble_a km kv kd c0 c1 c2 r c = 0) := by
  refine ⟨rfl, rfl, ?_, ?_, ?_, ?_⟩
  · intro hr hc
    unfold assemble_a place_block set_block zeros2
    by_cases h2 : (0 : ℕ) < c0.rows + c1.rows + c2.rows - (c0.rows + c1.rows)
    all_goals by_cases h1 : (0 : ℕ) < c0.rows + c1.rows - c0.rows
    all_goals by_cases h0 : (0 : ℕ) < c0.rows - 0
    all_goals simp only [if_pos, if_neg, h0, h1, h2, if_true, if_false]
    all_goals split_ifs <;> first | rfl | omega
  · intro hr0 hr1 hc
    unfold assemble_a place_block set_block zeros2
    by_cases h2 : (0 : ℕ) < c0.rows + c1.rows + c2.rows - (c0.rows + c1.rows)
    all_goals by_cases h1 : (0 : ℕ) < c0.rows + c1.rows - c0.rows
    all_goals by_cases h0 : (0 : ℕ) < c0.rows - 0
    all_goals simp only [if_pos, if_neg, h0, h1, h2, if_true, if_false]
    all_goals split_ifs <;> first | rfl | omega
  · intro hr0 hr1 hc
    unfold assemble_a place_block set_block zeros2
    by_cases h2 : (0 : ℕ) < c0.rows + c1.rows + c2.rows - (c0.rows + c1.rows)
    all_goals by_cases h1 : (0 : ℕ) < c0.rows + c1.rows - c0.rows
    all_goals by_cases h0 : (0 : ℕ) < c0.rows - 0
    all_goals simp only [if_pos, if_neg, h0, h1, h2, if_true, if_false]
    all_goals split_ifs <;> first | rfl | omega
  · rintro ⟨h0, h1, h2⟩
    refine ⟨by simp [assembled_rows, h0, h1, h2], ?_⟩
    unfold assemble_a place_block set_block zeros2
    rw [h0, h1, h2]
    simp

/-- C6: evaluating the reshape step at a failing input.  With original
series length 3 and fit window `[1, 3)`, the adjusted residuals have
length 2 and the buffer is allocated with that adjusted length, so the
window assignment `resids_final[1:3] = resids` raises a shape-mismatch
`ValueError` instead of producing the claimed original-length array
`[NaN, r0, r1]`; and even in the benign window `[0, 2)` the result has the
adjusted length with no NaN positions, not the original pre-adjustment
length. -/
theorem fit_reshape_window_raises :
    fit_reshape (1, 3) [(10 : ℚ), (20 : ℚ)] =
      Except.error PyError.valueError ∧
    fit_reshape (0, 2) [(10 : ℚ), (20 : ℚ)] =
      Except.ok [some (10 : ℚ), some (20 : ℚ)] := by
  exact ⟨rfl, rfl⟩

/-- The covariance computation spelled out at lines 514-523 implements
exactly the spec's classic and robust formulas; together with the
`TypeError` facts below, this isolates the kwargs dictionary as the sole
slip in `compute_param_cov`. -/
theorem param_cov_core_matches_spec {k n : ℕ} {B : Type} (backcast : B)
    (nobs : ℕ) (ah : B → Bool → MatQ k k) (af : B → Bool → MatQ n k)
    (minv : MatQ k k → MatQ k k) (robust : Bool) :
    param_cov_core backcast nobs ah af minv robust =
      param_cov_spec backcast nobs ah af minv robust := by
  cases robust <;> rfl

/-- C8: evaluating `compute_param_cov` at a failing input.  The kwargs
dictionary carries the keys `sigma2` and `var_bounds`, which are not
keyword parameters of `_loglikelihood`, so both the classic
(`robust = False`) and the robust (`robust = True`) calls raise
`TypeError` from the forwarded `approx_hess` call instead of returning
the claimed inverse-Hessian or sandwich estimate. -/
theorem compute_param_cov_type_error :
    (Kw.sigma2 ∈ compute_param_cov_kwargs ∧
      Kw.sigma2 ∉ loglikelihood_keywords) ∧
    (Kw.var_bounds ∈ compute_param_cov_kwargs ∧
      Kw.var_bounds ∉ loglikelihood_keywords) ∧
    (compute_param_cov (k := 1) (n := 1) (B := ℚ) none none 0 3
        (fun _ _ _ _ => 0) (fun _ _ _ _ => 0) id false).1
      = Except.error PyError.typeError ∧
    (compute_param_cov (k := 1) (n := 1) (B := ℚ) none none 0 3
        (fun _ _ _ _ => 0) (fun _ _ _ _ => 0) id true).1
      = Except.error PyError.typeError :=
  ⟨by decide, by decide, rfl, rfl⟩

/-- C9: evaluating two successive `compute_param_cov` calls
(`robust = True`, then `robust = False`, both with `backcast = None`)
after a fit cached the backcast `5`.  The resolution step of both calls
does retrieve the identical cached value `5` — not the recomputed values
`7` and `9` — and leaves the cache unchanged, but both calls then raise
`TypeError` at the forwarded `approx_hess` call, so no covariance
estimation ever uses the seed. -/
theorem backcast_cached_but_estimation_raises :
    (resolve_backcast (fit_backcast_cache (5 : ℚ)) none 7).1 = 5 ∧
    (compute_param_cov (k := 1) (n := 1) (fit_backcast_cache (5 : ℚ))
        none 7 3 (fun _ _ _ _ => 0) (fun _ _ _ _ => 0) id true).2
      = fit_backcast_cache (5 : ℚ) ∧
    (resolve_backcast
        (compute_param_cov (k := 1) (n := 1) (fit_backcast_cache (5 : ℚ))
          none 7 3 (fun _ _ _ _ => 0) (fun _ _ _ _ => 0) id true).2
        none 9).1 = 5 ∧
    (compute_param_cov (k := 1) (n := 1)
        (compute_param_cov (k := 1) (n := 1) (fit_backcast_cache (5 : ℚ))
          none 7 3 (fun _ _ _ _ => 0) (fun _ _ _ _ => 0) id true).2
        none 9 3 (fun _ _ _ _ => 0) (fun _ _ _ _ => 0) id false).2
      = fit_backcast_cache (5 : ℚ) ∧
    (compute_param_cov (k := 1) (n := 1) (fit_backcast_cache (5 : ℚ))
        none 7 3 (fun _ _ _ _ => 0) (fun _ _ _ _ => 0) id true).1
      = Except.error PyError.typeError ∧
    (compute_param_cov (k := 1) (n := 1)
        (compute_param_cov (k := 1) (n := 1) (fit_backcast_cache (5 : ℚ))
          none 7 3 (fun _ _ _ _ => 0) (fun _ _ _ _ => 0) id true).2
        none 9 3 (fun _ _ _ _ => 0) (fun _ _ _ _ => 0) id false).1
      = Except.error PyError.typeError :=
  ⟨rfl, rfl, rfl, rfl, rfl, rfl⟩

end ArchMV
